import Mathlib

/-!
Verification of the numerical post-processing functions of the
`cantera-jupyter` extinction-strain-rate notebooks.

Arrays of floating-point numbers are embedded as `List ℚ`; numpy array
operations (`np.diff`, elementwise division, `argmax`, `argmin`, `np.trapz`)
are translated as total functions on lists, with Python runtime errors
(IndexError on out-of-range indexing, ValueError on argmax/argmin of an
empty slice) embedded as `Except String` error values.

Two notebook variants exist in the repository and define the same function
names; they are embedded in the namespaces `PartZero`
(src/unnamed/part_000, while-loop scan in `computeStrainRates`) and
`TwinESR` (src/flames/twinPremixedESR.ipynb, argmax/argmin selection).
The shared functions `derivative` and `computeConsumptionSpeed` are
textually identical in the two variants and are embedded once.
-/

deriving instance DecidableEq for Except

namespace CanteraESR

/-- `np.diff`: `npDiff a` has entries `a[i+1] - a[i]`, length `a.length - 1`. -/
def npDiff (a : List ℚ) : List ℚ :=
  List.zipWith (fun p q => q - p) a a.tail

/-- Embedding of `derivative(x, y)` from both notebooks:
`dydx = np.zeros(y.shape); dx = np.diff(x); dy = np.diff(y);
dydx[0:-1] = dy/dx; dydx[-1] = (y[-1]-y[-2])/(x[-1]-x[-2])`. -/
def derivative (x y : List ℚ) : List ℚ :=
  let dx := npDiff x
  let dy := npDiff y
  let fwd := List.zipWith (fun a b => a / b) dy dx
  fwd ++ [(y.getD (y.length - 1) 0 - y.getD (y.length - 2) 0) /
          (x.getD (x.length - 1) 0 - x.getD (x.length - 2) 0)]

namespace PartZero

/-- The while loop of `computeStrainRates` in src/unnamed/part_000:
`n = 0; while strainRates[n] > strainRates[n+1]: n += 1`.
Python raises IndexError as soon as `n+1` (or `n`) is out of range; the
loop otherwise stops at the first `n` with `strainRates[n] <= strainRates[n+1]`.
The fuel argument is called with `s.length`, which is enough for every
terminating run; fuel exhaustion coincides with the out-of-range case. -/
def scanLoop (s : List ℚ) : ℕ → ℕ → Except String ℕ
  | _, 0 => .error "IndexError"
  | n, fuel + 1 =>
    if n + 1 < s.length then
      if s.getD (n + 1) 0 < s.getD n 0 then scanLoop s (n + 1) fuel
      else .ok n
    else .error "IndexError"

/-- `computeStrainRates(oppFlame)` from src/unnamed/part_000:
`strainRates = derivative(grid, u)`, while-loop scan for the first
non-decrease, `K = abs(strainRates[n])`. -/
def computeStrainRates (grid u : List ℚ) : Except String (List ℚ × ℕ × ℚ) :=
  let strainRates := derivative grid u
  match scanLoop strainRates 0 strainRates.length with
  | .error e => .error e
  | .ok n => .ok (strainRates, n, |strainRates.getD n 0|)

end PartZero

namespace TwinESR

/-- Interior worker for numpy `argmax`: `i` is the index of the next element
of `l` in the original array, `best` the index of the running maximum `bv`.
numpy returns the first index attaining the maximum, so the running maximum
is replaced only on a strict increase. -/
def argmaxAux : List ℚ → ℕ → ℕ → ℚ → ℕ
  | [], _, best, _ => best
  | a :: rest, i, best, bv =>
    if bv < a then argmaxAux rest (i + 1) i a
    else argmaxAux rest (i + 1) best bv

/-- numpy `argmax` on a 1-D array: first index of the maximum; raises
ValueError on an empty array. -/
def npArgmax : List ℚ → Except String ℕ
  | [] => .error "ValueError"
  | a :: rest => .ok (argmaxAux rest 1 0 a)

/-- Interior worker for numpy `argmin`, symmetric to `argmaxAux`. -/
def argminAux : List ℚ → ℕ → ℕ → ℚ → ℕ
  | [], _, best, _ => best
  | a :: rest, i, best, bv =>
    if a < bv then argminAux rest (i + 1) i a
    else argminAux rest (i + 1) best bv

/-- numpy `argmin` on a 1-D array: first index of the minimum; raises
ValueError on an empty array. -/
def npArgmin : List ℚ → Except String ℕ
  | [] => .error "ValueError"
  | a :: rest => .ok (argminAux rest 1 0 a)

/-- `computeStrainRates(oppFlame)` from src/flames/twinPremixedESR.ipynb:
`maxStrLocation = abs(strainRates).argmax();
minVelocityPoint = u[:maxStrLocation].argmin();
strainRatePoint = abs(strainRates[:minVelocityPoint]).argmax();
K = abs(strainRates[strainRatePoint])`. -/
def computeStrainRates (grid u : List ℚ) : Except String (List ℚ × ℕ × ℚ) :=
  let strainRates := derivative grid u
  match npArgmax (strainRates.map (fun r => |r|)) with
  | .error e => .error e
  | .ok maxStrLocation =>
    match npArgmin (u.take maxStrLocation) with
    | .error e => .error e
    | .ok minVelocityPoint =>
      match npArgmax ((strainRates.take minVelocityPoint).map (fun r => |r|)) with
      | .error e => .error e
      | .ok strainRatePoint =>
        .ok (strainRates, strainRatePoint, |strainRates.getD strainRatePoint 0|)

end TwinESR

/-- A strict monotone trend passes through index `i` of `s`: both neighbours
exist and continue a strictly increasing or strictly decreasing run. -/
def strictlyMonotoneAt (s : List ℚ) (i : ℕ) : Prop :=
  0 < i ∧ i + 1 < s.length ∧
  ((s.getD (i - 1) 0 < s.getD i 0 ∧ s.getD i 0 < s.getD (i + 1) 0) ∨
   (s.getD i 0 < s.getD (i - 1) 0 ∧ s.getD (i + 1) 0 < s.getD i 0))

/-- Index `i` of `s` is a (weak) local extremum: its neighbouring values do
not continue a strict monotone trend through it. -/
def isLocalExtremum (s : List ℚ) (i : ℕ) : Prop :=
  ¬ strictlyMonotoneAt s i

instance (s : List ℚ) (i : ℕ) : Decidable (strictlyMonotoneAt s i) := by
  unfold strictlyMonotoneAt; infer_instance

instance (s : List ℚ) (i : ℕ) : Decidable (isLocalExtremum s i) := by
  unfold isLocalExtremum; infer_instance

/-- Python `max` over a list (`max(oppFlame.T)`); Python raises on an empty
list, whose value here is the unused default 0. -/
def listMax : List ℚ → ℚ
  | [] => 0
  | a :: rest => rest.foldl max a

/-- Python `min` over a list (`min(oppFlame.T)`). -/
def listMin : List ℚ → ℚ
  | [] => 0
  | a :: rest => rest.foldl min a

/-- numpy `np.trapz(y, x)`: trapezoidal rule over sample points `x`,
`sum of (x[i+1] - x[i]) * (y[i] + y[i+1]) / 2`. -/
def npTrapz : List ℚ → List ℚ → ℚ
  | y0 :: y1 :: ys, x0 :: x1 :: xs =>
    (x1 - x0) * (y0 + y1) / 2 + npTrapz (y1 :: ys) (x1 :: xs)
  | _, _ => 0

/-- `computeConsumptionSpeed(oppFlame)` from both notebooks:
`Tb = max(T); Tu = min(T); rho_u = max(density);
integrand = heat_release_rate/cp; I = np.trapz(integrand, grid);
Sc = I/(Tb - Tu)/rho_u`. -/
def computeConsumptionSpeed (T density heat_release_rate cp grid : List ℚ) : ℚ :=
  let Tb := listMax T
  let Tu := listMin T
  let rho_u := listMax density
  let integrand := List.zipWith (fun a b => a / b) heat_release_rate cp
  let I := npTrapz integrand grid
  I / (Tb - Tu) / rho_u

/-- The flame object as the notebooks read and write it: the per-grid-point
field arrays owned by the external solver (`grid`, `u`, `T`, `density`,
`heat_release_rate`, `cp`), the reactants inlet mass flux
(`oppFlame.reactants.mdot`) and the refine criteria set through
`set_refine_criteria` as the 4-tuple of its keyword arguments. -/
structure Flame where
  grid : List ℚ
  u : List ℚ
  T : List ℚ
  density : List ℚ
  heat_release_rate : List ℚ
  cp : List ℚ
  reactants_mdot : ℚ
  refine_criteria : ℚ × ℚ × ℚ × ℚ

/-- The flame object just before `oppFlame.solve`: `solveOpposedFlame` first
sets `oppFlame.reactants.mdot = massFlux` and then
`oppFlame.set_refine_criteria` with the four tuning arguments. -/
def configureFlame (f : Flame) (massFlux ratioC slopeC curveC pruneC : ℚ) : Flame :=
  { f with reactants_mdot := massFlux,
           refine_criteria := (ratioC, slopeC, curveC, pruneC) }

namespace PartZero

/-- `solveOpposedFlame` from src/unnamed/part_000: configure the flame,
invoke the external solver (`oppFlame.solve(loglevel, auto=True)`, which
mutates the flame in place — embedded as a function from the configured
flame to a solved flame or a solver error), run `computeStrainRates` on the
solved arrays and return `(np.max(oppFlame.T), K, strainRatePoint)`.
`show_solution` and `loglevel` only produce console output and are not
modelled. -/
def solveOpposedFlame (solve : Flame → Except String Flame) (oppFlame : Flame)
    (massFlux ratioC slopeC curveC pruneC : ℚ) : Except String (ℚ × ℚ × ℕ) :=
  match solve (configureFlame oppFlame massFlux ratioC slopeC curveC pruneC) with
  | .error e => .error e
  | .ok solved =>
    match computeStrainRates solved.grid solved.u with
    | .error e => .error e
    | .ok (_, strainRatePoint, K) => .ok (listMax solved.T, K, strainRatePoint)

end PartZero

namespace TwinESR

/-- `solveOpposedFlame` from src/flames/twinPremixedESR.ipynb; identical to
the part_000 version except that it calls this notebook's
`computeStrainRates`. -/
def solveOpposedFlame (solve : Flame → Except String Flame) (oppFlame : Flame)
    (massFlux ratioC slopeC curveC pruneC : ℚ) : Except String (ℚ × ℚ × ℕ) :=
  match solve (configureFlame oppFlame massFlux ratioC slopeC curveC pruneC) with
  | .error e => .error e
  | .ok solved =>
    match computeStrainRates solved.grid solved.u with
    | .error e => .error e
    | .ok (_, strainRatePoint, K) => .ok (listMax solved.T, K, strainRatePoint)

end TwinESR

/-- A concrete solved flame used to exercise the solver-facing theorems. -/
def testFlame : Flame :=
  { grid := [0, 1, 2], u := [0, 5, 3], T := [300, 1500, 900],
    density := [1, 2, 1], heat_release_rate := [10, 20, 10], cp := [2, 4, 2],
    reactants_mdot := 0, refine_criteria := (2, 3 / 10, 3 / 10, 1 / 20) }

/-- A second concrete solved flame whose grid and velocity arrays are the
argmax example, on which both `computeStrainRates` variants succeed. -/
def testFlame2 : Flame :=
  { grid := [0, 1, 2, 3, 4, 5], u := [0, -1, -3, -6, -16, 4],
    T := [300, 400, 900, 1500, 1400, 1200], density := [1, 2, 2, 1, 1, 1],
    heat_release_rate := [10, 20, 30, 20, 10, 10], cp := [2, 4, 4, 2, 2, 2],
    reactants_mdot := 0, refine_criteria := (2, 3 / 10, 3 / 10, 1 / 20) }

/-- A degenerate flame (empty arrays) on which both `computeStrainRates`
implementations fail, used to exercise error propagation. -/
def badFlame : Flame :=
  { grid := [], u := [], T := [], density := [], heat_release_rate := [],
    cp := [], reactants_mdot := 0, refine_criteria := (2, 3 / 10, 3 / 10, 1 / 20) }

/-- One step of the notebooks' top-level linear script. -/
inductive Event
  | configureGas
  | createFlame
  | solverCall
  | strainAnalysis
  | csvWrite
  | consumptionAnalysis
  | plotStep
deriving DecidableEq

/-- The top-level script of src/unnamed/part_000 as a straight-line program
emitting one event per step, in cell order: configure the gas state and
compute `massFlux = gas.density * axial_velocity * 0.01`; create the flame
object; call `solveOpposedFlame` (the solver call followed by the
strain-rate analysis on the solved arrays, inlined here so that both emit
events); `write_csv`; `computeConsumptionSpeed`; plotting. The solved flame
replaces `oppFlame`, as `oppFlame.solve` mutates it in place; an uncaught
exception aborts the script at its step. -/
def runNotebook (solve : Flame → Except String Flame)
    (gasDensity axialVelocity : ℚ) (oppFlame0 : Flame) :
    Except String ((ℚ × ℚ × ℕ) × ℚ) × List Event :=
  let massFlux := gasDensity * axialVelocity * (1 / 100)
  match solve (configureFlame oppFlame0 massFlux 2 (3 / 10) (3 / 10) (1 / 20)) with
  | .error e => (.error e, [.configureGas, .createFlame, .solverCall])
  | .ok oppFlame =>
    match PartZero.computeStrainRates oppFlame.grid oppFlame.u with
    | .error e =>
      (.error e, [.configureGas, .createFlame, .solverCall, .strainAnalysis])
    | .ok (_, strainRatePoint, K) =>
      let Sc := computeConsumptionSpeed oppFlame.T oppFlame.density
        oppFlame.heat_release_rate oppFlame.cp oppFlame.grid
      (.ok ((listMax oppFlame.T, K, strainRatePoint), Sc),
       [.configureGas, .createFlame, .solverCall, .strainAnalysis, .csvWrite,
        .consumptionAnalysis, .plotStep])

lemma npDiff_length (a : List ℚ) : (npDiff a).length = a.length - 1 := by
  cases a with
  | nil => simp [npDiff]
  | cons h t => simp [npDiff]

lemma getD_tail (a : List ℚ) (i : ℕ) : a.tail.getD i 0 = a.getD (i + 1) 0 := by
  cases a with
  | nil => simp
  | cons h t => simp [List.getD_cons_succ]

lemma npDiff_getD (a : List ℚ) (i : ℕ) (h : i + 1 < a.length) :
    (npDiff a).getD i 0 = a.getD (i + 1) 0 - a.getD i 0 := by
  have hlen : i < (npDiff a).length := by
    rw [npDiff_length]; omega
  rw [npDiff, List.getD_eq_getElem _ _ (by simpa [npDiff] using hlen)]
  rw [List.getElem_zipWith]
  rw [← List.getD_eq_getElem (d := 0), ← List.getD_eq_getElem (d := 0), getD_tail]

lemma derivative_length (x y : List ℚ) (hx : x.length = y.length) :
    (derivative x y).length = (y.length - 1) + 1 := by
  simp [derivative, npDiff_length, hx]

lemma derivative_getD_fwd (x y : List ℚ) (hx : x.length = y.length) (i : ℕ)
    (h : i + 1 < y.length) :
    (derivative x y).getD i 0 =
      (y.getD (i + 1) 0 - y.getD i 0) / (x.getD (i + 1) 0 - x.getD i 0) := by
  have hfwd : i < (List.zipWith (fun a b => a / b) (npDiff y) (npDiff x)).length := by
    simp [npDiff_length, hx]; omega
  rw [derivative]
  rw [List.getD_append _ _ _ _ hfwd]
  rw [List.getD_eq_getElem _ _ hfwd, List.getElem_zipWith]
  rw [← List.getD_eq_getElem (d := 0), ← List.getD_eq_getElem (d := 0)]
  rw [npDiff_getD y i h, npDiff_getD x i (by omega)]

lemma derivative_getD_last (x y : List ℚ) (hx : x.length = y.length) :
    (derivative x y).getD (y.length - 1) 0 =
      (y.getD (y.length - 1) 0 - y.getD (y.length - 2) 0) /
      (x.getD (x.length - 1) 0 - x.getD (x.length - 2) 0) := by
  have hfwd : (List.zipWith (fun a b => a / b) (npDiff y) (npDiff x)).length
      = y.length - 1 := by
    simp [npDiff_length, hx]
  rw [derivative]
  rw [List.getD_append_right _ _ _ _ (by rw [hfwd])]
  rw [hfwd, Nat.sub_self, List.getD_cons_zero]

lemma derivative_ne_nil (x y : List ℚ) : derivative x y ≠ [] := by
  simp [derivative]

/-- C1: `derivative` is a variable-spacing forward/backward-difference hybrid:
for arrays `x`, `y` of the same length `n ≥ 2` with `x[i+1] ≠ x[i]` for every
`i`, `derivative x y` has the shape of `y`; entry `i` for `i < n-1` is the
forward difference `(y[i+1]-y[i])/(x[i+1]-x[i])`; the last entry is the
backward difference `(y[n-1]-y[n-2])/(x[n-1]-x[n-2])`. -/
theorem derivative_forward_backward_hybrid (x y : List ℚ)
    (hx : x.length = y.length) (h2 : 2 ≤ y.length)
    (_hne : ∀ i, i + 1 < y.length → x.getD (i + 1) 0 ≠ x.getD i 0) :
    (derivative x y).length = y.length ∧
    (∀ i, i + 1 < y.length →
      (derivative x y).getD i 0 =
        (y.getD (i + 1) 0 - y.getD i 0) / (x.getD (i + 1) 0 - x.getD i 0)) ∧
    (derivative x y).getD (y.length - 1) 0 =
      (y.getD (y.length - 1) 0 - y.getD (y.length - 2) 0) /
      (x.getD (x.length - 1) 0 - x.getD (x.length - 2) 0) := by
  refine ⟨?_, ?_, derivative_getD_last x y hx⟩
  · rw [derivative_length x y hx]; omega
  · intro i hi
    exact derivative_getD_fwd x y hx i hi

/-- Witness for C1 at `x = [0, 1, 3]`, `y = [2, 5, 4]`. -/
theorem derivative_forward_backward_hybrid_witness :
    ([(0 : ℚ), 1, 3].length = [(2 : ℚ), 5, 4].length) ∧
    (2 ≤ [(2 : ℚ), 5, 4].length) ∧
    ((derivative [0, 1, 3] [2, 5, 4]).length = [(2 : ℚ), 5, 4].length ∧
     (∀ i, i + 1 < [(2 : ℚ), 5, 4].length →
       (derivative [0, 1, 3] [2, 5, 4]).getD i 0 =
         ([(2 : ℚ), 5, 4].getD (i + 1) 0 - [(2 : ℚ), 5, 4].getD i 0) /
         ([(0 : ℚ), 1, 3].getD (i + 1) 0 - [(0 : ℚ), 1, 3].getD i 0)) ∧
     (derivative [0, 1, 3] [2, 5, 4]).getD ([(2 : ℚ), 5, 4].length - 1) 0 =
       ([(2 : ℚ), 5, 4].getD ([(2 : ℚ), 5, 4].length - 1) 0 -
        [(2 : ℚ), 5, 4].getD ([(2 : ℚ), 5, 4].length - 2) 0) /
       ([(0 : ℚ), 1, 3].getD ([(0 : ℚ), 1, 3].length - 1) 0 -
        [(0 : ℚ), 1, 3].getD ([(0 : ℚ), 1, 3].length - 2) 0)) :=
  ⟨by decide, by decide,
   derivative_forward_backward_hybrid [0, 1, 3] [2, 5, 4] (by decide) (by decide)
     (by
      intro i hi
      have hb : i < 2 := by simp only [List.length_cons, List.length_nil] at hi; omega
      interval_cases i <;> decide)⟩

/-- C9: the last two entries of `derivative`'s output are always equal: the
backward difference assigned at the endpoint duplicates the final forward
difference. -/
theorem derivative_last_two_equal (x y : List ℚ)
    (hx : x.length = y.length) (h2 : 2 ≤ y.length) :
    (derivative x y).getD (y.length - 2) 0 =
      (derivative x y).getD (y.length - 1) 0 := by
  have hi : (y.length - 2) + 1 < y.length := by omega
  rw [derivative_getD_fwd x y hx _ hi, derivative_getD_last x y hx]
  have h1 : y.length - 2 + 1 = y.length - 1 := by omega
  rw [h1, hx]

/-- Witness for C9 at `x = [0, 1, 3]`, `y = [2, 5, 4]`. -/
theorem derivative_last_two_equal_witness :
    (derivative [0, 1, 4] [1, 7, 2]).getD ([(1 : ℚ), 7, 2].length - 2) 0 =
      (derivative [0, 1, 4] [1, 7, 2]).getD ([(1 : ℚ), 7, 2].length - 1) 0 :=
  derivative_last_two_equal [0, 1, 4] [1, 7, 2] (by decide) (by decide)

namespace PartZero

/-- Every `.ok` result of the while-loop scan is the first index at which the
strict decrease stops, with all earlier comparisons strictly decreasing. -/
lemma scanLoop_ok_spec (s : List ℚ) :
    ∀ fuel n p, scanLoop s n fuel = .ok p →
      n ≤ p ∧ p + 1 < s.length ∧ ¬ s.getD (p + 1) 0 < s.getD p 0 ∧
      ∀ i, n ≤ i → i < p → s.getD (i + 1) 0 < s.getD i 0 := by
  intro fuel
  induction fuel with
  | zero => intro n p h; simp [scanLoop] at h
  | succ fuel ih =>
    intro n p h
    simp only [scanLoop] at h
    by_cases hb : n + 1 < s.length
    · rw [if_pos hb] at h
      by_cases hc : s.getD (n + 1) 0 < s.getD n 0
      · rw [if_pos hc] at h
        obtain ⟨h1, h2, h3, h4⟩ := ih (n + 1) p h
        refine ⟨by omega, h2, h3, ?_⟩
        intro i hni hip
        rcases Nat.eq_or_lt_of_le hni with heq | hlt
        · subst heq; exact hc
        · exact h4 i hlt hip
      · rw [if_neg hc] at h
        cases h
        exact ⟨Nat.le_refl n, hb, hc, fun i h1 h2 => absurd (Nat.lt_of_le_of_lt h1 h2) (Nat.lt_irrefl n)⟩
    · rw [if_neg hb] at h
      exact absurd h (by simp)

/-- If the strict decrease stops at some in-range index `m ≥ n`, the scan
terminates normally (given enough fuel). -/
lemma scanLoop_ok_of_stop (s : List ℚ) :
    ∀ fuel n m, n ≤ m → m + 1 < s.length → ¬ s.getD (m + 1) 0 < s.getD m 0 →
      m - n < fuel → ∃ p, scanLoop s n fuel = .ok p := by
  intro fuel
  induction fuel with
  | zero => intro n m _ _ _ h4; omega
  | succ fuel ih =>
    intro n m h1 h2 h3 h4
    simp only [scanLoop]
    have hb : n + 1 < s.length := by omega
    rw [if_pos hb]
    by_cases hc : s.getD (n + 1) 0 < s.getD n 0
    · rw [if_pos hc]
      have hnm : n ≠ m := by rintro rfl; exact h3 hc
      exact ih (n + 1) m (by omega) h2 h3 (by omega)
    · rw [if_neg hc]; exact ⟨n, rfl⟩

/-- If the array is strictly decreasing wherever both indices are in range,
the scan runs off the end of the array: IndexError. -/
lemma scanLoop_error_of_decreasing (s : List ℚ)
    (hdec : ∀ i, i + 1 < s.length → s.getD (i + 1) 0 < s.getD i 0) :
    ∀ fuel n, scanLoop s n fuel = .error "IndexError" := by
  intro fuel
  induction fuel with
  | zero => intro n; rfl
  | succ fuel ih =>
    intro n
    simp only [scanLoop]
    by_cases hb : n + 1 < s.length
    · rw [if_pos hb, if_pos (hdec n hb)]; exact ih (n + 1)
    · rw [if_neg hb]

/-- Inversion of `computeStrainRates` from src/unnamed/part_000. -/
lemma computeStrainRatesScan_ok_spec (grid u : List ℚ) (s : List ℚ) (p : ℕ) (k : ℚ)
    (h : computeStrainRates grid u = .ok (s, p, k)) :
    s = derivative grid u ∧ k = |s.getD p 0| ∧ p + 1 < s.length ∧
    ¬ s.getD (p + 1) 0 < s.getD p 0 ∧
    ∀ i, i < p → s.getD (i + 1) 0 < s.getD i 0 := by
  simp only [computeStrainRates] at h
  split at h
  · exact absurd h (by simp)
  · rename_i n hscan
    simp only [Except.ok.injEq, Prod.mk.injEq] at h
    obtain ⟨hs, hp, hk⟩ := h
    subst hp
    subst hk
    subst hs
    obtain ⟨-, h2, h3, h4⟩ := scanLoop_ok_spec _ _ _ _ hscan
    exact ⟨rfl, rfl, h2, h3, fun i hi => h4 i (Nat.zero_le i) hi⟩

end PartZero

namespace TwinESR

lemma argmaxAux_lt (l : List ℚ) :
    ∀ i best bv, best < i → argmaxAux l i best bv < i + l.length := by
  induction l with
  | nil => intro i best bv h; simpa [argmaxAux] using by omega
  | cons a rest ih =>
    intro i best bv h
    simp only [argmaxAux, List.length_cons]
    by_cases hc : bv < a
    · rw [if_pos hc]
      have := ih (i + 1) i a (Nat.lt_succ_self i)
      omega
    · rw [if_neg hc]
      have := ih (i + 1) best bv (by omega)
      omega

lemma npArgmax_ok_lt (l : List ℚ) (M : ℕ) (h : npArgmax l = .ok M) :
    M < l.length := by
  cases l with
  | nil => exact absurd h (by simp [npArgmax])
  | cons a rest =>
    simp only [npArgmax, Except.ok.injEq] at h
    have := argmaxAux_lt rest 1 0 a Nat.zero_lt_one
    simp only [List.length_cons]
    omega

lemma npArgmax_ok_of_ne_nil (l : List ℚ) (h : l ≠ []) :
    ∃ M, npArgmax l = .ok M := by
  cases l with
  | nil => exact absurd rfl h
  | cons a rest => exact ⟨argmaxAux rest 1 0 a, rfl⟩

/-- Inversion of `computeStrainRates` from src/flames/twinPremixedESR.ipynb. -/
lemma computeStrainRatesArgmax_ok_spec (grid u : List ℚ) (s : List ℚ) (p : ℕ) (k : ℚ)
    (h : computeStrainRates grid u = .ok (s, p, k)) :
    s = derivative grid u ∧ k = |s.getD p 0| := by
  simp only [computeStrainRates] at h
  split at h
  · exact absurd h (by simp)
  · split at h
    · exact absurd h (by simp)
    · split at h
      · exact absurd h (by simp)
      · simp only [Except.ok.injEq, Prod.mk.injEq] at h
        obtain ⟨hs, hp, hk⟩ := h
        subst hp
        subst hk
        subst hs
        exact ⟨rfl, rfl⟩

end TwinESR

/-- Evaluation: `derivative` on the scan example. -/
lemma derivative_eval_scan : derivative [0, 1, 2] [0, 5, 3] = [5, -2, -2] := by
  norm_num [derivative, npDiff]

/-- Evaluation: `derivative` on the argmax example. -/
lemma derivative_eval_argmax :
    derivative [0, 1, 2, 3, 4, 5] [0, -1, -3, -6, -16, 4] =
      [-1, -2, -3, -10, 20, 20] := by
  norm_num [derivative, npDiff]

/-- Evaluation: `derivative` on the argmin-at-zero example. -/
lemma derivative_eval_minzero : derivative [0, 1, 2] [1, 2, 0] = [1, -2, -2] := by
  norm_num [derivative, npDiff]

/-- Evaluation: the part_000 `computeStrainRates` on the scan example. -/
lemma PartZero_eval_scan :
    PartZero.computeStrainRates [0, 1, 2] [0, 5, 3] = .ok ([5, -2, -2], 1, 2) := by
  simp only [PartZero.computeStrainRates, derivative_eval_scan]
  rfl

/-- Evaluation: the part_000 `computeStrainRates` on the argmax example. -/
lemma PartZero_eval_argmax :
    PartZero.computeStrainRates [0, 1, 2, 3, 4, 5] [0, -1, -3, -6, -16, 4] =
      .ok ([-1, -2, -3, -10, 20, 20], 3, 10) := by
  simp only [PartZero.computeStrainRates, derivative_eval_argmax]
  rfl

/-- Evaluation: the ipynb `computeStrainRates` on the argmax example. -/
lemma TwinESR_eval_argmax :
    TwinESR.computeStrainRates [0, 1, 2, 3, 4, 5] [0, -1, -3, -6, -16, 4] =
      .ok ([-1, -2, -3, -10, 20, 20], 2, 3) := by
  simp only [TwinESR.computeStrainRates, derivative_eval_argmax]
  rfl

/-- C2 (amended): in the part_000 while-loop implementation the returned
`strainRatePoint` is a weak local extremum of the strain-rate array (the
values strictly decrease up to it and do not decrease past it) and
`K = |strainRates[strainRatePoint]|`; in the ipynb argmax/argmin
implementation `K = |strainRates[strainRatePoint]|` still holds, but the
returned index need not be a local extremum. -/
theorem strainRatePoint_extremum (grid u : List ℚ) (s : List ℚ) (p : ℕ) (k : ℚ) :
    (PartZero.computeStrainRates grid u = .ok (s, p, k) →
      isLocalExtremum s p ∧ k = |s.getD p 0|) ∧
    (TwinESR.computeStrainRates grid u = .ok (s, p, k) →
      k = |s.getD p 0|) := by
  constructor
  · intro h
    obtain ⟨hs, hk, h2, h3, h4⟩ := PartZero.computeStrainRatesScan_ok_spec grid u s p k h
    refine ⟨?_, hk⟩
    rintro ⟨hp0, hp1, hcase⟩
    rcases hcase with ⟨hl, hr⟩ | ⟨hl, hr⟩
    · have hdec := h4 (p - 1) (by omega)
      rw [show p - 1 + 1 = p by omega] at hdec
      exact absurd hl (lt_asymm hdec)
    · exact h3 hr
  · intro h
    exact (TwinESR.computeStrainRatesArgmax_ok_spec grid u s p k h).2

/-- Witness for C2: the part_000 scan on `grid = [0,1,2]`, `u = [0,5,3]`
returns index 1 (a local extremum, `K = 2`), and the ipynb selection on the
argmax example returns `K = 3 = |strainRates[2]|`. -/
theorem strainRatePoint_extremum_witness :
    (isLocalExtremum [5, -2, -2] 1 ∧ (2 : ℚ) = |([5, -2, -2] : List ℚ).getD 1 0|) ∧
    ((3 : ℚ) = |([-1, -2, -3, -10, 20, 20] : List ℚ).getD 2 0|) :=
  ⟨(strainRatePoint_extremum [0, 1, 2] [0, 5, 3] [5, -2, -2] 1 2).1 PartZero_eval_scan,
   (strainRatePoint_extremum [0, 1, 2, 3, 4, 5] [0, -1, -3, -6, -16, 4]
      [-1, -2, -3, -10, 20, 20] 2 3).2 TwinESR_eval_argmax⟩

/-- Counterexample for C2 as stated: on `grid = [0,1,2,3,4,5]`,
`u = [0,-1,-3,-6,-16,4]` the ipynb `computeStrainRates` returns index 2,
where the strain-rate array `[-1,-2,-3,-10,20,20]` is strictly decreasing
through its neighbourhood, so the returned index is not a local extremum. -/
theorem strainRatePoint_extremum_counterexample :
    TwinESR.computeStrainRates [0, 1, 2, 3, 4, 5] [0, -1, -3, -6, -16, 4] =
      .ok ([-1, -2, -3, -10, 20, 20], 2, 3) ∧
    ¬ isLocalExtremum [-1, -2, -3, -10, 20, 20] 2 :=
  ⟨TwinESR_eval_argmax, by decide⟩

/-- C3 (amended): whenever both implementations of `computeStrainRates`
return, they agree on the strain-rate array, which is `derivative grid u`,
and each returns `K = |strainRates[strainRatePoint]|` for its own returned
index; but the two implementations are not equivalent: the returned
`(strainRatePoint, K)` pairs can differ. -/
theorem computeStrainRates_refinement (grid u : List ℚ) (s0 s1 : List ℚ)
    (p0 p1 : ℕ) (k0 k1 : ℚ)
    (h0 : PartZero.computeStrainRates grid u = .ok (s0, p0, k0))
    (h1 : TwinESR.computeStrainRates grid u = .ok (s1, p1, k1)) :
    s0 = derivative grid u ∧ s1 = derivative grid u ∧
    k0 = |s0.getD p0 0| ∧ k1 = |s1.getD p1 0| := by
  obtain ⟨hs0, hk0, -, -, -⟩ := PartZero.computeStrainRatesScan_ok_spec grid u s0 p0 k0 h0
  obtain ⟨hs1, hk1⟩ := TwinESR.computeStrainRatesArgmax_ok_spec grid u s1 p1 k1 h1
  exact ⟨hs0, hs1, hk0, hk1⟩

/-- Witness for C3 (amended) at the argmax example, where both
implementations succeed. -/
theorem computeStrainRates_refinement_witness :
    ([-1, -2, -3, -10, 20, 20] : List ℚ) =
        derivative [0, 1, 2, 3, 4, 5] [0, -1, -3, -6, -16, 4] ∧
    ([-1, -2, -3, -10, 20, 20] : List ℚ) =
        derivative [0, 1, 2, 3, 4, 5] [0, -1, -3, -6, -16, 4] ∧
    (10 : ℚ) = |([-1, -2, -3, -10, 20, 20] : List ℚ).getD 3 0| ∧
    (3 : ℚ) = |([-1, -2, -3, -10, 20, 20] : List ℚ).getD 2 0| :=
  computeStrainRates_refinement [0, 1, 2, 3, 4, 5] [0, -1, -3, -6, -16, 4]
    [-1, -2, -3, -10, 20, 20] [-1, -2, -3, -10, 20, 20] 3 2 10 3
    PartZero_eval_argmax TwinESR_eval_argmax

/-- Counterexample for C3 as stated: on `grid = [0,1,2,3,4,5]`,
`u = [0,-1,-3,-6,-16,4]` both implementations are defined, but part_000
returns `(strainRatePoint, K) = (3, 10)` while the ipynb returns `(2, 3)`. -/
theorem computeStrainRates_equivalence_counterexample :
    PartZero.computeStrainRates [0, 1, 2, 3, 4, 5] [0, -1, -3, -6, -16, 4] =
      .ok ([-1, -2, -3, -10, 20, 20], 3, 10) ∧
    TwinESR.computeStrainRates [0, 1, 2, 3, 4, 5] [0, -1, -3, -6, -16, 4] =
      .ok ([-1, -2, -3, -10, 20, 20], 2, 3) ∧
    ((3, (10 : ℚ)) ≠ (2, (3 : ℚ))) :=
  ⟨PartZero_eval_argmax, TwinESR_eval_argmax, by decide⟩

/-- C10: whenever either implementation of `computeStrainRates` returns,
`K` equals the absolute value of the strain-rate array at the returned
index, hence `K ≥ 0`. -/
theorem computeStrainRates_K_nonneg (grid u : List ℚ) (s : List ℚ) (p : ℕ) (k : ℚ) :
    (PartZero.computeStrainRates grid u = .ok (s, p, k) →
      k = |s.getD p 0| ∧ 0 ≤ k) ∧
    (TwinESR.computeStrainRates grid u = .ok (s, p, k) →
      k = |s.getD p 0| ∧ 0 ≤ k) := by
  constructor
  · intro h
    obtain ⟨-, hk, -, -, -⟩ := PartZero.computeStrainRatesScan_ok_spec grid u s p k h
    exact ⟨hk, hk ▸ abs_nonneg _⟩
  · intro h
    obtain ⟨-, hk⟩ := TwinESR.computeStrainRatesArgmax_ok_spec grid u s p k h
    exact ⟨hk, hk ▸ abs_nonneg _⟩

/-- Witness for C10, one concrete run of each implementation. -/
theorem computeStrainRates_K_nonneg_witness :
    ((2 : ℚ) = |([5, -2, -2] : List ℚ).getD 1 0| ∧ (0 : ℚ) ≤ 2) ∧
    ((3 : ℚ) = |([-1, -2, -3, -10, 20, 20] : List ℚ).getD 2 0| ∧ (0 : ℚ) ≤ 3) :=
  ⟨(computeStrainRates_K_nonneg [0, 1, 2] [0, 5, 3] [5, -2, -2] 1 2).1
      PartZero_eval_scan,
   (computeStrainRates_K_nonneg [0, 1, 2, 3, 4, 5] [0, -1, -3, -6, -16, 4]
      [-1, -2, -3, -10, 20, 20] 2 3).2 TwinESR_eval_argmax⟩

lemma take_ne_nil_of_ne_nil (s : List ℚ) (m : ℕ) (hs : s ≠ []) (hm : m ≠ 0) :
    s.take m ≠ [] := by
  cases s with
  | nil => exact absurd rfl hs
  | cons a t =>
    cases m with
    | zero => exact absurd rfl hm
    | succ m => simp [List.take_succ_cons]

/-- C8: partiality of the two `computeStrainRates` implementations at the
public interface. The part_000 while loop fails (IndexError) whenever the
strain-rate array strictly decreases over its whole length, and returns
with every index in bounds as soon as the strict decrease stops somewhere
in range; the ipynb version fails (ValueError) whenever the global
`|strainRates|` argmax is at index 0 or the velocity argmin before it is at
index 0, and otherwise returns with every index in bounds. -/
theorem computeStrainRates_partiality :
    (∀ grid u,
      (∀ i, i + 1 < (derivative grid u).length →
        (derivative grid u).getD (i + 1) 0 < (derivative grid u).getD i 0) →
      PartZero.computeStrainRates grid u = .error "IndexError") ∧
    (∀ grid u m, m + 1 < (derivative grid u).length →
      ¬ (derivative grid u).getD (m + 1) 0 < (derivative grid u).getD m 0 →
      ∃ p k, PartZero.computeStrainRates grid u = .ok (derivative grid u, p, k) ∧
        p + 1 < (derivative grid u).length) ∧
    (∀ grid u, TwinESR.npArgmax ((derivative grid u).map (fun r => |r|)) = .ok 0 →
      TwinESR.computeStrainRates grid u = .error "ValueError") ∧
    (∀ grid u M, TwinESR.npArgmax ((derivative grid u).map (fun r => |r|)) = .ok M →
      TwinESR.npArgmin (u.take M) = .ok 0 →
      TwinESR.computeStrainRates grid u = .error "ValueError") ∧
    (∀ grid u M mv, TwinESR.npArgmax ((derivative grid u).map (fun r => |r|)) = .ok M →
      TwinESR.npArgmin (u.take M) = .ok mv → mv ≠ 0 →
      ∃ p, TwinESR.computeStrainRates grid u =
          .ok (derivative grid u, p, |(derivative grid u).getD p 0|) ∧
        p < (derivative grid u).length) := by
  refine ⟨?_, ?_, ?_, ?_, ?_⟩
  · intro grid u hdec
    simp only [PartZero.computeStrainRates,
      PartZero.scanLoop_error_of_decreasing _ hdec]
  · intro grid u m h1 h2
    obtain ⟨p, hp⟩ := PartZero.scanLoop_ok_of_stop (derivative grid u)
      ((derivative grid u).length) 0 m (Nat.zero_le m) h1 h2 (by omega)
    obtain ⟨-, hplen, -, -⟩ := PartZero.scanLoop_ok_spec _ _ _ _ hp
    exact ⟨p, |(derivative grid u).getD p 0|,
      by simp only [PartZero.computeStrainRates, hp], hplen⟩
  · intro grid u h
    simp only [TwinESR.computeStrainRates, h, List.take_zero]
    rfl
  · intro grid u M h1 h2
    simp only [TwinESR.computeStrainRates, h1, h2, List.take_zero, List.map_nil]
    rfl
  · intro grid u M mv h1 h2 hmv
    have hne : ((derivative grid u).take mv).map (fun r => |r|) ≠ [] := by
      simp only [ne_eq, List.map_eq_nil_iff]
      exact take_ne_nil_of_ne_nil _ _ (derivative_ne_nil grid u) hmv
    obtain ⟨p, hp3⟩ := TwinESR.npArgmax_ok_of_ne_nil _ hne
    have hplt : p < (derivative grid u).length := by
      have := TwinESR.npArgmax_ok_lt _ _ hp3
      simp only [List.length_map, List.length_take] at this
      omega
    exact ⟨p, by simp only [TwinESR.computeStrainRates, h1, h2, hp3], hplt⟩

/-- Witness for C8: one concrete input per conjunct. On `[] , []` the scan
fails; on `[0,1,2], [0,5,3]` it succeeds with the stop at `m = 1`; the same
input makes the ipynb argmax sit at index 0 (ValueError); `[0,1,2], [1,2,0]`
puts the velocity argmin at 0 (ValueError); the argmax example satisfies the
exclusion precondition and succeeds. -/
theorem computeStrainRates_partiality_witness :
    PartZero.computeStrainRates [] [] = .error "IndexError" ∧
    (∃ p k, PartZero.computeStrainRates [0, 1, 2] [0, 5, 3] =
        .ok (derivative [0, 1, 2] [0, 5, 3], p, k) ∧
      p + 1 < (derivative [0, 1, 2] [0, 5, 3]).length) ∧
    TwinESR.computeStrainRates [0, 1, 2] [0, 5, 3] = .error "ValueError" ∧
    TwinESR.computeStrainRates [0, 1, 2] [1, 2, 0] = .error "ValueError" ∧
    (∃ p, TwinESR.computeStrainRates [0, 1, 2, 3, 4, 5] [0, -1, -3, -6, -16, 4] =
        .ok (derivative [0, 1, 2, 3, 4, 5] [0, -1, -3, -6, -16, 4], p,
          |(derivative [0, 1, 2, 3, 4, 5] [0, -1, -3, -6, -16, 4]).getD p 0|) ∧
      p < (derivative [0, 1, 2, 3, 4, 5] [0, -1, -3, -6, -16, 4]).length) :=
  ⟨computeStrainRates_partiality.1 [] []
     (by
       intro i hi
       rw [show (derivative ([] : List ℚ) []).length = 1 from rfl] at hi
       omega),
   computeStrainRates_partiality.2.1 [0, 1, 2] [0, 5, 3] 1
     (by rw [derivative_eval_scan]; decide)
     (by rw [derivative_eval_scan]; decide),
   computeStrainRates_partiality.2.2.1 [0, 1, 2] [0, 5, 3]
     (by rw [derivative_eval_scan]; decide),
   computeStrainRates_partiality.2.2.2.1 [0, 1, 2] [1, 2, 0] 1
     (by rw [derivative_eval_minzero]; decide) (by decide),
   computeStrainRates_partiality.2.2.2.2 [0, 1, 2, 3, 4, 5] [0, -1, -3, -6, -16, 4] 4 3
     (by rw [derivative_eval_argmax]; decide) (by decide) (by decide)⟩

lemma getD_zipWith_div (a b : List ℚ) (i : ℕ) (ha : i < a.length)
    (hb : i < b.length) :
    (List.zipWith (fun p q => p / q) a b).getD i 0 = a.getD i 0 / b.getD i 0 := by
  rw [List.getD_eq_getElem _ _ (by simp only [List.length_zipWith]; omega),
    List.getElem_zipWith, ← List.getD_eq_getElem (d := 0),
    ← List.getD_eq_getElem (d := 0)]

/-- The recursive trapezoid accumulates the indexed sum of the standard
trapezoidal rule. -/
lemma npTrapz_eq_sum (y x : List ℚ) (h : y.length = x.length) :
    npTrapz y x = ∑ i in Finset.range (x.length - 1),
      (x.getD (i + 1) 0 - x.getD i 0) * (y.getD i 0 + y.getD (i + 1) 0) / 2 := by
  induction y generalizing x with
  | nil =>
    cases x with
    | nil => simp [npTrapz]
    | cons x0 xs => simp at h
  | cons y0 ys ih =>
    cases x with
    | nil => simp at h
    | cons x0 xs =>
      cases ys with
      | nil =>
        cases xs with
        | nil => simp [npTrapz]
        | cons x1 xs => simp at h
      | cons y1 ys =>
        cases xs with
        | nil => simp at h
        | cons x1 xs =>
          have h' : (y1 :: ys).length = (x1 :: xs).length := by
            simp only [List.length_cons] at h ⊢; omega
          rw [show npTrapz (y0 :: y1 :: ys) (x0 :: x1 :: xs) =
                (x1 - x0) * (y0 + y1) / 2 + npTrapz (y1 :: ys) (x1 :: xs) from rfl,
            ih (x1 :: xs) h']
          simp only [List.length_cons, Nat.add_sub_cancel]
          rw [Finset.sum_range_succ']
          simp only [List.getD_cons_succ, List.getD_cons_zero]
          rw [add_comm]

/-- C4: `computeConsumptionSpeed` performs trapezoidal integration: for
per-grid-point arrays `T`, `density`, `heat_release_rate`, `cp`, `grid` of
one length `n ≥ 2` with `max T ≠ min T`, it returns
`I / (max T - min T) / max density` where `I` is the trapezoidal-rule
integral of `heat_release_rate/cp` over `grid`. -/
theorem computeConsumptionSpeed_trapezoid
    (T density heat_release_rate cp grid : List ℚ)
    (hh : heat_release_rate.length = grid.length) (hc : cp.length = grid.length)
    (h2 : 2 ≤ grid.length) (_hT : listMax T ≠ listMin T) :
    computeConsumptionSpeed T density heat_release_rate cp grid =
      (∑ i in Finset.range (grid.length - 1),
        (grid.getD (i + 1) 0 - grid.getD i 0) *
          (heat_release_rate.getD i 0 / cp.getD i 0 +
           heat_release_rate.getD (i + 1) 0 / cp.getD (i + 1) 0) / 2) /
      (listMax T - listMin T) / listMax density := by
  have hlen : (List.zipWith (fun a b => a / b) heat_release_rate cp).length
      = grid.length := by
    simp only [List.length_zipWith]; omega
  simp only [computeConsumptionSpeed]
  rw [npTrapz_eq_sum _ _ hlen]
  congr 2
  refine Finset.sum_congr rfl ?_
  intro i hi
  have hi' : i < grid.length - 1 := Finset.mem_range.mp hi
  rw [getD_zipWith_div _ _ i (by omega) (by omega),
    getD_zipWith_div _ _ (i + 1) (by omega) (by omega)]

/-- Witness for C4 at `T = [300, 1500]`, `density = [1, 2]`,
`heat_release_rate = [10, 20]`, `cp = [2, 4]`, `grid = [0, 3]`. -/
theorem computeConsumptionSpeed_trapezoid_witness :
    computeConsumptionSpeed [300, 1500] [1, 2] [10, 20] [2, 4] [0, 3] =
      (∑ i in Finset.range (([(0 : ℚ), 3] : List ℚ).length - 1),
        (([(0 : ℚ), 3] : List ℚ).getD (i + 1) 0 - ([(0 : ℚ), 3] : List ℚ).getD i 0) *
          (([(10 : ℚ), 20] : List ℚ).getD i 0 / ([(2 : ℚ), 4] : List ℚ).getD i 0 +
           ([(10 : ℚ), 20] : List ℚ).getD (i + 1) 0 /
             ([(2 : ℚ), 4] : List ℚ).getD (i + 1) 0) / 2) /
      (listMax [300, 1500] - listMin [300, 1500]) / listMax [1, 2] :=
  computeConsumptionSpeed_trapezoid [300, 1500] [1, 2] [10, 20] [2, 4] [0, 3]
    (by decide) (by decide) (by decide) (by decide)

/-- C6: `solveOpposedFlame` passes exactly the spec's solver inputs and
returns the solved outputs: the flame handed to `solve` carries
`reactants.mdot = massFlux` and the refine criteria 4-tuple, and on solver
and analysis success the returned triple is
`(max of the solved temperature array, K, strainRatePoint)` as computed by
`computeStrainRates` on the solved arrays — in both notebook variants. -/
theorem solveOpposedFlame_interface (solve : Flame → Except String Flame)
    (oppFlame : Flame) (massFlux ratioC slopeC curveC pruneC : ℚ) :
    ((configureFlame oppFlame massFlux ratioC slopeC curveC pruneC).reactants_mdot
        = massFlux ∧
     (configureFlame oppFlame massFlux ratioC slopeC curveC pruneC).refine_criteria
        = (ratioC, slopeC, curveC, pruneC) ∧
     (configureFlame oppFlame massFlux ratioC slopeC curveC pruneC).grid
        = oppFlame.grid ∧
     (configureFlame oppFlame massFlux ratioC slopeC curveC pruneC).u
        = oppFlame.u) ∧
    (∀ solved s p k,
      solve (configureFlame oppFlame massFlux ratioC slopeC curveC pruneC)
          = .ok solved →
      PartZero.computeStrainRates solved.grid solved.u = .ok (s, p, k) →
      PartZero.solveOpposedFlame solve oppFlame massFlux ratioC slopeC curveC pruneC
          = .ok (listMax solved.T, k, p)) ∧
    (∀ solved s p k,
      solve (configureFlame oppFlame massFlux ratioC slopeC curveC pruneC)
          = .ok solved →
      TwinESR.computeStrainRates solved.grid solved.u = .ok (s, p, k) →
      TwinESR.solveOpposedFlame solve oppFlame massFlux ratioC slopeC curveC pruneC
          = .ok (listMax solved.T, k, p)) := by
  refine ⟨⟨rfl, rfl, rfl, rfl⟩, ?_, ?_⟩
  · intro solved s p k hsolve hcsr
    simp only [PartZero.solveOpposedFlame, hsolve, hcsr]
  · intro solved s p k hsolve hcsr
    simp only [TwinESR.solveOpposedFlame, hsolve, hcsr]

/-- Witness for C6: a solver stub returning `testFlame`, on which both
variants return the triple built from the solved arrays. -/
theorem solveOpposedFlame_interface_witness :
    ((configureFlame testFlame 1 2 (3 / 10) (3 / 10) (1 / 20)).reactants_mdot = 1 ∧
     (configureFlame testFlame 1 2 (3 / 10) (3 / 10) (1 / 20)).refine_criteria
        = (2, 3 / 10, 3 / 10, 1 / 20) ∧
     (configureFlame testFlame 1 2 (3 / 10) (3 / 10) (1 / 20)).grid = testFlame.grid ∧
     (configureFlame testFlame 1 2 (3 / 10) (3 / 10) (1 / 20)).u = testFlame.u) ∧
    PartZero.solveOpposedFlame (fun _ => .ok testFlame) testFlame 1 2 (3 / 10)
        (3 / 10) (1 / 20) = .ok (listMax testFlame.T, 2, 1) ∧
    TwinESR.solveOpposedFlame (fun _ => .ok testFlame2) testFlame 1 2 (3 / 10)
        (3 / 10) (1 / 20) = .ok (listMax testFlame2.T, 3, 2) :=
  ⟨(solveOpposedFlame_interface (fun _ => .ok testFlame) testFlame 1 2 (3 / 10)
      (3 / 10) (1 / 20)).1,
   (solveOpposedFlame_interface (fun _ => .ok testFlame) testFlame 1 2 (3 / 10)
      (3 / 10) (1 / 20)).2.1 testFlame [5, -2, -2] 1 2 rfl PartZero_eval_scan,
   (solveOpposedFlame_interface (fun _ => .ok testFlame2) testFlame 1 2 (3 / 10)
      (3 / 10) (1 / 20)).2.2 testFlame2 [-1, -2, -3, -10, 20, 20] 2 3 rfl
     TwinESR_eval_argmax⟩

/-- C5: no notebook code catches, retries or classifies errors: a solver
error propagates unchanged through `solveOpposedFlame`, and so does an
error raised by `computeStrainRates` on the solved arrays — in both
notebook variants, with the error value untouched. -/
theorem no_error_handling (solve : Flame → Except String Flame)
    (oppFlame : Flame) (massFlux ratioC slopeC curveC pruneC : ℚ) (e : String) :
    (solve (configureFlame oppFlame massFlux ratioC slopeC curveC pruneC)
        = .error e →
      PartZero.solveOpposedFlame solve oppFlame massFlux ratioC slopeC curveC pruneC
          = .error e ∧
      TwinESR.solveOpposedFlame solve oppFlame massFlux ratioC slopeC curveC pruneC
          = .error e) ∧
    (∀ solved,
      solve (configureFlame oppFlame massFlux ratioC slopeC curveC pruneC)
          = .ok solved →
      (PartZero.computeStrainRates solved.grid solved.u = .error e →
        PartZero.solveOpposedFlame solve oppFlame massFlux ratioC slopeC curveC pruneC
            = .error e) ∧
      (TwinESR.computeStrainRates solved.grid solved.u = .error e →
        TwinESR.solveOpposedFlame solve oppFlame massFlux ratioC slopeC curveC pruneC
            = .error e)) := by
  constructor
  · intro hsolve
    constructor
    · simp only [PartZero.solveOpposedFlame, hsolve]
    · simp only [TwinESR.solveOpposedFlame, hsolve]
  · intro solved hsolve
    constructor
    · intro hcsr
      simp only [PartZero.solveOpposedFlame, hsolve, hcsr]
    · intro hcsr
      simp only [TwinESR.solveOpposedFlame, hsolve, hcsr]

/-- Witness for C5: a failing solver stub propagates its error string, and
a succeeding solver stub returning degenerate arrays propagates the
analysis errors (IndexError / ValueError) unchanged. -/
theorem no_error_handling_witness :
    (PartZero.solveOpposedFlame (fun _ => .error "CanteraError") testFlame 1 2
        (3 / 10) (3 / 10) (1 / 20) = .error "CanteraError" ∧
     TwinESR.solveOpposedFlame (fun _ => .error "CanteraError") testFlame 1 2
        (3 / 10) (3 / 10) (1 / 20) = .error "CanteraError") ∧
    PartZero.solveOpposedFlame (fun _ => .ok badFlame) testFlame 1 2 (3 / 10)
        (3 / 10) (1 / 20) = .error "IndexError" ∧
    TwinESR.solveOpposedFlame (fun _ => .ok badFlame) testFlame 1 2 (3 / 10)
        (3 / 10) (1 / 20) = .error "ValueError" :=
  ⟨(no_error_handling (fun _ => .error "CanteraError") testFlame 1 2 (3 / 10)
      (3 / 10) (1 / 20) "CanteraError").1 rfl,
   ((no_error_handling (fun _ => .ok badFlame) testFlame 1 2 (3 / 10) (3 / 10)
      (1 / 20) "IndexError").2 badFlame rfl).1 rfl,
   ((no_error_handling (fun _ => .ok badFlame) testFlame 1 2 (3 / 10) (3 / 10)
      (1 / 20) "ValueError").2 badFlame rfl).2 rfl⟩

lemma runNotebook_trace_cases (solve : Flame → Except String Flame)
    (gasDensity axialVelocity : ℚ) (oppFlame0 : Flame) :
    (runNotebook solve gasDensity axialVelocity oppFlame0).2 =
        [Event.configureGas, Event.createFlame, Event.solverCall] ∨
    (runNotebook solve gasDensity axialVelocity oppFlame0).2 =
        [Event.configureGas, Event.createFlame, Event.solverCall,
         Event.strainAnalysis] ∨
    (runNotebook solve gasDensity axialVelocity oppFlame0).2 =
        [Event.configureGas, Event.createFlame, Event.solverCall,
         Event.strainAnalysis, Event.csvWrite, Event.consumptionAnalysis,
         Event.plotStep] := by
  cases hsolve : solve (configureFlame oppFlame0
      (gasDensity * axialVelocity * (1 / 100)) 2 (3 / 10) (3 / 10) (1 / 20)) with
  | error e =>
    simp only [runNotebook, hsolve]
    exact Or.inl trivial
  | ok oppFlame =>
    cases hcsr : PartZero.computeStrainRates oppFlame.grid oppFlame.u with
    | error e =>
      simp only [runNotebook, hsolve, hcsr]
      exact Or.inr (Or.inl trivial)
    | ok trip =>
      obtain ⟨s, p, k⟩ := trip
      simp only [runNotebook, hsolve, hcsr]
      exact Or.inr (Or.inr trivial)

/-- C7: the top-level script runs its steps in the stated order: gas and
flame configuration precede the solver call; the strain-rate analysis, the
CSV write and the consumption-speed analysis happen only after the solver
call; plotting is last; and the analyses read only the solver's output
arrays (the solved flame). -/
theorem notebook_step_order (solve : Flame → Except String Flame)
    (gasDensity axialVelocity : ℚ) (oppFlame0 : Flame) :
    ((runNotebook solve gasDensity axialVelocity oppFlame0).2.indexOf
        Event.configureGas <
      (runNotebook solve gasDensity axialVelocity oppFlame0).2.indexOf
        Event.solverCall) ∧
    (Event.strainAnalysis ∈ (runNotebook solve gasDensity axialVelocity oppFlame0).2 →
      (runNotebook solve gasDensity axialVelocity oppFlame0).2.indexOf
          Event.solverCall <
        (runNotebook solve gasDensity axialVelocity oppFlame0).2.indexOf
          Event.strainAnalysis) ∧
    (Event.csvWrite ∈ (runNotebook solve gasDensity axialVelocity oppFlame0).2 →
      (runNotebook solve gasDensity axialVelocity oppFlame0).2.indexOf
          Event.solverCall <
        (runNotebook solve gasDensity axialVelocity oppFlame0).2.indexOf
          Event.csvWrite) ∧
    (Event.consumptionAnalysis ∈
        (runNotebook solve gasDensity axialVelocity oppFlame0).2 →
      (runNotebook solve gasDensity axialVelocity oppFlame0).2.indexOf
          Event.csvWrite <
        (runNotebook solve gasDensity axialVelocity oppFlame0).2.indexOf
          Event.consumptionAnalysis ∧
      (runNotebook solve gasDensity axialVelocity oppFlame0).2.indexOf
          Event.solverCall <
        (runNotebook solve gasDensity axialVelocity oppFlame0).2.indexOf
          Event.consumptionAnalysis) ∧
    (Event.plotStep ∈ (runNotebook solve gasDensity axialVelocity oppFlame0).2 →
      (runNotebook solve gasDensity axialVelocity oppFlame0).2.getLast?
        = some Event.plotStep) ∧
    (∀ res, (runNotebook solve gasDensity axialVelocity oppFlame0).1 = .ok res →
      ∃ solved,
        solve (configureFlame oppFlame0 (gasDensity * axialVelocity * (1 / 100))
            2 (3 / 10) (3 / 10) (1 / 20)) = .ok solved ∧
        res.2 = computeConsumptionSpeed solved.T solved.density
          solved.heat_release_rate solved.cp solved.grid ∧
        res.1.1 = listMax solved.T) := by
  refine ⟨?_, ?_, ?_, ?_, ?_, ?_⟩
  · rcases runNotebook_trace_cases solve gasDensity axialVelocity oppFlame0 with
      h | h | h <;> rw [h] <;> decide
  · rcases runNotebook_trace_cases solve gasDensity axialVelocity oppFlame0 with
      h | h | h <;> rw [h] <;> decide
  · rcases runNotebook_trace_cases solve gasDensity axialVelocity oppFlame0 with
      h | h | h <;> rw [h] <;> decide
  · rcases runNotebook_trace_cases solve gasDensity axialVelocity oppFlame0 with
      h | h | h <;> rw [h] <;> decide
  · rcases runNotebook_trace_cases solve gasDensity axialVelocity oppFlame0 with
      h | h | h <;> rw [h] <;> decide
  · intro res hres
    simp only [runNotebook] at hres
    split at hres
    · exact absurd hres (by simp)
    · rename_i solved hsolve
      split at hres
      · exact absurd hres (by simp)
      · rename_i sA pA kA hcsr
        simp only [Except.ok.injEq] at hres
        subst hres
        exact ⟨solved, hsolve, rfl, rfl⟩

/-- Evaluation of the script trace on a solver stub that succeeds with
`testFlame`. -/
lemma runNotebook_eval_trace :
    (runNotebook (fun _ => .ok testFlame) 1 200 testFlame).2 =
      [Event.configureGas, Event.createFlame, Event.solverCall,
       Event.strainAnalysis, Event.csvWrite, Event.consumptionAnalysis,
       Event.plotStep] := by
  simp only [runNotebook, testFlame]
  rw [PartZero_eval_scan]

/-- Evaluation of the script result on the same solver stub. -/
lemma runNotebook_eval_fst :
    (runNotebook (fun _ => .ok testFlame) 1 200 testFlame).1 =
      .ok ((listMax testFlame.T, 2, 1),
        computeConsumptionSpeed testFlame.T testFlame.density
          testFlame.heat_release_rate testFlame.cp testFlame.grid) := by
  have h : PartZero.computeStrainRates testFlame.grid testFlame.u =
      .ok ([5, -2, -2], 1, 2) := PartZero_eval_scan
  simp only [runNotebook, h]

/-- Witness for C7 on the succeeding solver stub: the full trace is emitted
in order and the result is computed from the solved arrays. -/
theorem notebook_step_order_witness :
    ((runNotebook (fun _ => .ok testFlame) 1 200 testFlame).2.indexOf
        Event.solverCall <
      (runNotebook (fun _ => .ok testFlame) 1 200 testFlame).2.indexOf
        Event.strainAnalysis) ∧
    ((runNotebook (fun _ => .ok testFlame) 1 200 testFlame).2.indexOf
        Event.solverCall <
      (runNotebook (fun _ => .ok testFlame) 1 200 testFlame).2.indexOf
        Event.csvWrite) ∧
    ((runNotebook (fun _ => .ok testFlame) 1 200 testFlame).2.getLast?
        = some Event.plotStep) ∧
    (∃ solved,
      (Except.ok testFlame : Except String Flame) = .ok solved ∧
      (computeConsumptionSpeed testFlame.T testFlame.density
          testFlame.heat_release_rate testFlame.cp testFlame.grid) =
        computeConsumptionSpeed solved.T solved.density
          solved.heat_release_rate solved.cp solved.grid ∧
      (listMax testFlame.T, 2, 1).1 = listMax solved.T) :=
  ⟨(notebook_step_order (fun _ => .ok testFlame) 1 200 testFlame).2.1
     (by rw [runNotebook_eval_trace]; decide),
   (notebook_step_order (fun _ => .ok testFlame) 1 200 testFlame).2.2.1
     (by rw [runNotebook_eval_trace]; decide),
   (notebook_step_order (fun _ => .ok testFlame) 1 200 testFlame).2.2.2.2.1
     (by rw [runNotebook_eval_trace]; decide),
   (notebook_step_order (fun _ => .ok testFlame) 1 200 testFlame).2.2.2.2.2
     ((listMax testFlame.T, 2, 1),
       computeConsumptionSpeed testFlame.T testFlame.density
         testFlame.heat_release_rate testFlame.cp testFlame.grid)
     runNotebook_eval_fst⟩

end CanteraESR
